import Mathlib

/-!
Shallow embedding of the conversation-state and event-deduplication core of
the slack-private-message-app repository.

Sources embedded:
* `ConversationManager` (getConversation / addMessage / clearConversation /
  getConversationKey / resetExpirationTimer) from the conversation-manager
  module (src/unnamed/part_005).
* The event-deduplication portion of the Slack events API handler
  (src/src/pages/api/slack/events.ts): the `processedEvents` map, the
  duplicate check, the `setInterval` sweep, and the dispatch/catch structure.

JavaScript objects `Record<string, T>` are modelled as `String → Option T`;
`Map<string, number>` likewise.  `NodeJS.Timeout` handles are modelled as
numeric timer ids together with a list of live (scheduled, not yet fired or
cancelled) timers.  Wall-clock time (`Date.now()`, timer deadlines) is an
explicit `Nat` parameter.
-/

namespace SlackApp

/-- `role: 'system' | 'user' | 'assistant'` from the `ConversationMessage`
interface. -/
inductive Role where
  | system
  | user
  | assistant
  deriving DecidableEq, Repr

/-- `ConversationMessage { role; content }` from the conversation-manager
module. -/
structure ConversationMessage where
  role : Role
  content : String
  deriving DecidableEq, Repr

/-- `private readonly maxHistoryLength: number = 10`. -/
def maxHistoryLength : Nat := 10

/-- `private readonly expirationTime: number = 30 * 60 * 1000`. -/
def expirationTime : Nat := 30 * 60 * 1000

/-- `contextType: 'dm' | 'channel'`. -/
inductive ContextType where
  | dm
  | channel
  deriving DecidableEq, Repr

/-- The string a `contextType` interpolates to in a template literal. -/
def ContextType.str : ContextType → String
  | .dm => "dm"
  | .channel => "channel"

/-- `getConversationKey(userId, contextType)`: the template literal
`${userId}-${contextType}`. -/
def getConversationKey (userId : String) (contextType : ContextType) : String :=
  userId ++ "-" ++ contextType.str

/-- Update one key of a JS `Record` / `Map` modelled as a function;
`none` models `delete`. -/
def updateMap {α : Type} (m : String → Option α) (k : String) (v : Option α) :
    String → Option α :=
  fun k' => if k' = k then v else m k'

/-- A scheduled `setTimeout` handle: its numeric id, the conversation key its
callback closed over, and the instant it is due to fire. -/
structure TimerEntry where
  id : Nat
  key : String
  fireAt : Nat
  deriving DecidableEq, Repr

/-- The mutable fields of the `ConversationManager` singleton, together with
the set of live (scheduled, neither fired nor cancelled) timeout handles and
a fresh-id counter for `setTimeout`. -/
structure ManagerState where
  conversations : String → Option (List ConversationMessage)
  expirations : String → Option Nat
  live : List TimerEntry
  nextId : Nat

/-- The state of a freshly constructed `ConversationManager`. -/
def initState : ManagerState :=
  { conversations := fun _ => none
    expirations := fun _ => none
    live := []
    nextId := 0 }

/-- `clearTimeout` on an optionally stored handle: remove the timer with
that id from the live set (a no-op when no handle was stored). -/
def cancelIfScheduled (live : List TimerEntry) (handle : Option Nat) :
    List TimerEntry :=
  match handle with
  | some tid => live.filter (fun t => t.id ≠ tid)
  | none => live

/-- `resetExpirationTimer(key)`: `clearTimeout` any stored handle for the key,
then `setTimeout` a fresh timer `expirationTime` in the future and store its
handle.  `now` is the current clock. -/
def resetExpirationTimer (s : ManagerState) (key : String) (now : Nat) :
    ManagerState :=
  { conversations := s.conversations
    expirations := updateMap s.expirations key (some s.nextId)
    live := cancelIfScheduled s.live (s.expirations key)
      ++ [⟨s.nextId, key, now + expirationTime⟩]
    nextId := s.nextId + 1 }

/-- The body of the `setTimeout` callback in `resetExpirationTimer`: if the
conversation entry exists, delete it; then delete the expirations entry.  The
fired (one-shot) timeout is removed from the live set; nothing is
re-scheduled. -/
def fireTimer (s : ManagerState) (t : TimerEntry) : ManagerState :=
  { conversations :=
      if (s.conversations t.key).isSome then
        updateMap s.conversations t.key none
      else s.conversations
    expirations := updateMap s.expirations t.key none
    live := s.live.filter (fun u => u.id ≠ t.id)
    nextId := s.nextId }

/-- The trim step inside `addMessage`, applied to one conversation after the
`push`: if length exceeds `maxLen`, remember the first system message
(`find`), keep the most recent `maxLen` messages (`slice(-maxLen)`, which for
the positive constant `maxLen = maxHistoryLength = 10` is dropping all but
the last `maxLen`), and if a system message existed but none survived
(`some`), `unshift` it back to the front. -/
def pushAndTrim (maxLen : Nat) (conv : List ConversationMessage)
    (message : ConversationMessage) : List ConversationMessage :=
  let pushed := conv ++ [message]
  if maxLen < pushed.length then
    let systemMessage := pushed.find? (fun m => decide (m.role = Role.system))
    let trimmed := pushed.drop (pushed.length - maxLen)
    match systemMessage with
    | some sm =>
        if trimmed.any (fun m => decide (m.role = Role.system)) then trimmed
        else sm :: trimmed
    | none => trimmed
  else pushed

/-- `getConversation(userId, contextType)`: create an empty entry if absent
(JS: an existing empty array is truthy, only `undefined` triggers creation),
reset the expiration timer, and return the entry. -/
def getConversation (s : ManagerState) (userId : String)
    (contextType : ContextType) (now : Nat) :
    List ConversationMessage × ManagerState :=
  let key := getConversationKey userId contextType
  let conv := (s.conversations key).getD []
  let s1 : ManagerState := { s with conversations := updateMap s.conversations key (some conv) }
  (conv, resetExpirationTimer s1 key now)

/-- `addMessage(userId, contextType, message)`: create the entry if absent,
push the message, trim to `maxHistoryLength` preserving a system message,
and reset the expiration timer. -/
def addMessage (s : ManagerState) (userId : String) (contextType : ContextType)
    (message : ConversationMessage) (now : Nat) : ManagerState :=
  let key := getConversationKey userId contextType
  let conv := (s.conversations key).getD []
  let newConv := pushAndTrim maxHistoryLength conv message
  let s1 : ManagerState := { s with conversations := updateMap s.conversations key (some newConv) }
  resetExpirationTimer s1 key now

/-- `clearConversation(userId, contextType)`: delete the conversation entry;
if an expiration handle is stored, `clearTimeout` it and delete the entry. -/
def clearConversation (s : ManagerState) (userId : String)
    (contextType : ContextType) : ManagerState :=
  let key := getConversationKey userId contextType
  match s.expirations key with
  | some tid =>
      { conversations := updateMap s.conversations key none
        expirations := updateMap s.expirations key none
        live := s.live.filter (fun t => t.id ≠ tid)
        nextId := s.nextId }
  | none => { s with conversations := updateMap s.conversations key none }

/-! ## Event deduplication (src/src/pages/api/slack/events.ts) -/

/-- `const EVENT_CACHE_TTL = 5 * 60 * 1000`. -/
def EVENT_CACHE_TTL : Nat := 5 * 60 * 1000

/-- The `processedEvents` map: `Map<string, number>` from event id to the
`Date.now()` timestamp at which it was recorded. -/
def ProcessedEvents : Type := String → Option Nat

/-- The `setInterval` sweep body: delete every entry whose age
`now - timestamp` exceeds `EVENT_CACHE_TTL`.  (JS number subtraction can go
negative, in which case the comparison is false; `Nat` subtraction truncates
to 0, which is likewise not `> EVENT_CACHE_TTL` — same outcome.) -/
def sweep (m : ProcessedEvents) (now : Nat) : ProcessedEvents :=
  fun eventId =>
    match m eventId with
    | some timestamp => if EVENT_CACHE_TTL < now - timestamp then none else some timestamp
    | none => none

/-- A Slack event as far as the dispatch switch is concerned. -/
inductive SlackEventType where
  | message
  | appMention
  | reactionAdded
  | appHomeOpened
  | other
  deriving DecidableEq, Repr

/-- The fields of `SlackEventPayload` the dedup/dispatch region reads:
`event_id?: string` and `event?`. -/
structure EventPayload where
  event_id : Option String
  event : Option SlackEventType
  deriving DecidableEq, Repr

/-- The handler's HTTP outcome for the region after signature checks:
`200 {ok, duplicate:true}`, `200 {ok}`, or `500` from the catch. -/
inductive HandlerResponse where
  | okDuplicate
  | ok
  | internalError
  deriving DecidableEq, Repr

/-- Lines 367–376 of the handler: `if (eventPayload.event_id)` (a JS
truthiness test — `undefined` and `''` are falsy), then either report a
duplicate or record the id at `Date.now()`. -/
def checkDuplicate (m : ProcessedEvents) (now : Nat) (eventId : Option String) :
    Bool × ProcessedEvents :=
  match eventId with
  | some id =>
      if id ≠ "" then
        if (m id).isSome then (true, m)
        else (false, updateMap m id (some now))
      else (false, m)
  | none => (false, m)

/-- Lines 383–408 of the handler: dispatch `eventPayload.event` (if present)
to the per-type service handler — modelled as an oracle that may throw — and
answer 200; the surrounding `catch` turns a throw into a 500 response.  The
`processedEvents` map is not touched by this region. -/
def processEvent (m : ProcessedEvents) (p : EventPayload)
    (dispatch : SlackEventType → Except String Unit) :
    HandlerResponse × ProcessedEvents :=
  match p.event with
  | some ev =>
      match dispatch ev with
      | .ok _ => (.ok, m)
      | .error _ => (.internalError, m)
  | none => (.ok, m)

/-- The event handler from the duplicate check onward (lines 367–413): a
duplicate gets an early `200 {ok, duplicate:true}`; otherwise a fresh
non-empty id is recorded before dispatch, and dispatch runs under the
`try/catch`. -/
def handler (m : ProcessedEvents) (now : Nat) (p : EventPayload)
    (dispatch : SlackEventType → Except String Unit) :
    HandlerResponse × ProcessedEvents :=
  let checked := checkDuplicate m now p.event_id
  if checked.fst then (.okDuplicate, checked.snd)
  else processEvent checked.snd p dispatch

/-! ## Helper lemmas -/

theorem updateMap_same {α : Type} (m : String → Option α) (k : String) (v : Option α) :
    updateMap m k v k = v := by
  simp [updateMap]

theorem updateMap_ne {α : Type} (m : String → Option α) (k k' : String) (v : Option α)
    (h : k' ≠ k) : updateMap m k v k' = m k' := by
  simp [updateMap, h]

theorem updateMap_idem {α : Type} (m : String → Option α) (k : String) (v w : Option α) :
    updateMap (updateMap m k v) k w = updateMap m k w := by
  funext k'
  by_cases h : k' = k <;> simp [updateMap, h]

/-- The two context kinds interpolate to distinct strings, and appending
`"-" ++ ContextType.str c` is injective in the pair: suffix `-dm` and suffix
`-channel` cannot produce the same string even when `userId` contains `-`. -/
theorem getConversationKey_injective (u1 u2 : String) (c1 c2 : ContextType)
    (h : getConversationKey u1 c1 = getConversationKey u2 c2) :
    u1 = u2 ∧ c1 = c2 := by
  cases c1 <;> cases c2
  · have hd := congrArg String.data h
    simp [getConversationKey, ContextType.str, String.data_append] at hd
    exact ⟨String.ext hd, rfl⟩
  · exfalso
    have hd := congrArg (fun s => s.data.reverse) h
    simp [getConversationKey, ContextType.str, String.data_append] at hd
  · exfalso
    have hd := congrArg (fun s => s.data.reverse) h
    simp [getConversationKey, ContextType.str, String.data_append] at hd
  · have hd := congrArg String.data h
    simp [getConversationKey, ContextType.str, String.data_append] at hd
    exact ⟨String.ext hd, rfl⟩

/-! ## C4: key derivation is injective -/

/-- C4: the conversation key derivation `${userId}-${contextType}` is
injective over (userId, contextKind) pairs — equal keys force equal userIds
and equal context kinds — and in particular the `dm` and `channel` keys of
one user are distinct. -/
theorem C4_key_derivation_injective :
    (∀ u : String, getConversationKey u ContextType.dm ≠ getConversationKey u ContextType.channel) ∧
    (∀ (u1 u2 : String) (c1 c2 : ContextType),
      getConversationKey u1 c1 = getConversationKey u2 c2 → u1 = u2 ∧ c1 = c2) := by
  constructor
  · intro u hEq
    have h := getConversationKey_injective u u ContextType.dm ContextType.channel hEq
    exact ContextType.noConfusion h.2
  · exact getConversationKey_injective

/-- Witness for C4 at a concrete user id. -/
theorem C4_key_derivation_injective_witness :
    getConversationKey "U123" ContextType.dm ≠ getConversationKey "U123" ContextType.channel ∧
    ("U123" = "U123" ∧ ContextType.dm = ContextType.dm) :=
  ⟨C4_key_derivation_injective.1 "U123",
   C4_key_derivation_injective.2 "U123" "U123" ContextType.dm ContextType.dm rfl⟩

/-! ## C3: concrete trimming scenario -/

/-- The system message of the concrete scenarios. -/
def sMsg : ConversationMessage := ⟨Role.system, "system prompt"⟩

/-- A filler user message. -/
def uMsg : ConversationMessage := ⟨Role.user, "filler"⟩

/-- One system message followed by the 15 user messages
`"Message 0" .. "Message 14"`. -/
def c3Messages : List ConversationMessage :=
  sMsg :: (List.range 15).map (fun i => ⟨Role.user, "Message " ++ toString i⟩)

/-- The manager state after appending the C3 scenario messages to the `dm`
conversation of user `U1`, starting from a fresh manager. -/
def c3Final : ManagerState :=
  c3Messages.foldl (fun s msg => addMessage s "U1" ContextType.dm msg 0) initState

/-- C3: with maxHistoryLength = 10, appending one system message and then 15
user messages "Message 0" .. "Message 14" to an initially empty conversation
yields a conversation of length at most 11 that contains the system message
and ends with "Message 14". -/
theorem C3_concrete_trim_scenario :
    (getConversation c3Final "U1" ContextType.dm 0).fst.length ≤ 11 ∧
    sMsg ∈ (getConversation c3Final "U1" ContextType.dm 0).fst ∧
    ((getConversation c3Final "U1" ContextType.dm 0).fst.getLast?.map
      ConversationMessage.content) = some "Message 14" := by
  decide

/-! ## C1: system-message preservation under trimming -/

/-- The conversation stored for a key after `addMessage` is the pushed-and-
trimmed previous conversation. -/
theorem addMessage_conversations_key (s : ManagerState) (u : String) (ct : ContextType)
    (msg : ConversationMessage) (now : Nat) :
    (addMessage s u ct msg now).conversations (getConversationKey u ct)
      = some (pushAndTrim maxHistoryLength
          ((s.conversations (getConversationKey u ct)).getD []) msg) := by
  simp [addMessage, resetExpirationTimer, updateMap_same]

/-- `addMessage` leaves every other key's stored conversation unchanged. -/
theorem addMessage_conversations_other (s : ManagerState) (u : String) (ct : ContextType)
    (msg : ConversationMessage) (now : Nat) (k : String)
    (hk : k ≠ getConversationKey u ct) :
    (addMessage s u ct msg now).conversations k = s.conversations k := by
  simp [addMessage, resetExpirationTimer, updateMap_ne _ _ _ _ hk]

/-- Core trimming lemma: when the push overflows `maxHistoryLength` and a
system message was present, the trimmed conversation still holds a system
message and has length at most `maxHistoryLength + 1`; when the slice to the
most recent `maxHistoryLength` messages dropped every system message, the
first pre-trim system message sits at index 0 and the length is exactly
`maxHistoryLength + 1`. -/
theorem pushAndTrim_system_preserved (conv : List ConversationMessage)
    (msg : ConversationMessage)
    (hlen : maxHistoryLength < (conv ++ [msg]).length)
    (hsys : ∃ m ∈ conv, m.role = Role.system) :
    (∃ m ∈ pushAndTrim maxHistoryLength conv msg, m.role = Role.system) ∧
    (pushAndTrim maxHistoryLength conv msg).length ≤ maxHistoryLength + 1 ∧
    ((∀ m ∈ (conv ++ [msg]).drop ((conv ++ [msg]).length - maxHistoryLength),
        m.role ≠ Role.system) →
      (pushAndTrim maxHistoryLength conv msg).head?.map ConversationMessage.role
          = some Role.system ∧
        (pushAndTrim maxHistoryLength conv msg).length = maxHistoryLength + 1) := by
  have hmem : ∃ m ∈ conv ++ [msg], (fun m => decide (m.role = Role.system)) m := by
    obtain ⟨m, hm, hrole⟩ := hsys
    exact ⟨m, List.mem_append_left _ hm, by simp [hrole]⟩
  obtain ⟨a, ha⟩ := Option.isSome_iff_exists.mp (List.find?_isSome.mpr hmem)
  have haRole : a.role = Role.system := by
    have := List.find?_some ha
    simpa using this
  have hTrimLen :
      ((conv ++ [msg]).drop ((conv ++ [msg]).length - maxHistoryLength)).length
        = maxHistoryLength := by
    rw [List.length_drop]
    exact Nat.sub_sub_self (Nat.le_of_lt hlen)
  rw [pushAndTrim]
  simp only [hlen, if_true, ha]
  by_cases hany :
      ((conv ++ [msg]).drop ((conv ++ [msg]).length - maxHistoryLength)).any
        (fun m => decide (m.role = Role.system)) = true
  · rw [if_pos hany]
    obtain ⟨b, hb, hbRole⟩ := List.any_eq_true.mp hany
    refine ⟨⟨b, hb, by simpa using hbRole⟩, ?_, ?_⟩
    · rw [hTrimLen]; exact Nat.le_succ _
    · intro hnone
      exact absurd (by simpa using hbRole) (hnone b hb)
  · rw [if_neg hany]
    have hlen1 :
        (a :: (conv ++ [msg]).drop ((conv ++ [msg]).length - maxHistoryLength)).length
          = maxHistoryLength + 1 := by
      rw [List.length_cons, hTrimLen]
    refine ⟨⟨a, List.mem_cons_self _ _, haRole⟩, le_of_eq hlen1, ?_⟩
    intro _
    exact ⟨by simp [haRole], hlen1⟩

/-- The `dm` conversation key of the scenario user. -/
def c1Key : String := getConversationKey "U1" ContextType.dm

/-- Manager state holding nine user messages followed by one system message
in `U1`'s `dm` conversation (each append left length ≤ 10, so no trim has
happened yet). -/
def c1Pre : ManagerState :=
  (List.replicate 9 uMsg ++ [sMsg]).foldl
    (fun s msg => addMessage s "U1" ContextType.dm msg 0) initState

/-- The stored conversation just before the trim-triggering call. -/
def c1Before : List ConversationMessage := (c1Pre.conversations c1Key).getD []

/-- The stored conversation after one more user message triggers trimming. -/
def c1After : List ConversationMessage :=
  ((addMessage c1Pre "U1" ContextType.dm ⟨Role.user, "one more"⟩ 0).conversations
    c1Key).getD []

/-- Counterexample to C1: with the system message at the tail of a
length-10 conversation, the trim-triggering `addMessage` leaves the surviving
system message at index 8, not index 0 — the claimed
"exactly one system message present and it is at index 0" fails even though a
system message was present before trimming. -/
theorem C1_counterexample :
    maxHistoryLength < c1Before.length + 1 ∧
    (∃ m ∈ c1Before, m.role = Role.system) ∧
    ¬ (c1After.countP (fun m => decide (m.role = Role.system)) = 1 ∧
        c1After.head?.map ConversationMessage.role = some Role.system) := by
  decide

/-- C1 (amended): if a system message was present before a trim-triggering
`addMessage`, then afterwards at least one system message is present and the
length is at most maxHistoryLength + 1; the re-insertion at index 0 (with
length exactly maxHistoryLength + 1) happens exactly when the slice to the
most recent maxHistoryLength messages dropped every system message — a
system message late enough to survive the slice keeps its slice position,
which need not be index 0. -/
theorem C1_amended_system_preserved (s : ManagerState) (u : String) (ct : ContextType)
    (msg : ConversationMessage) (now : Nat)
    (hlen : maxHistoryLength <
      (((s.conversations (getConversationKey u ct)).getD []) ++ [msg]).length)
    (hsys : ∃ m ∈ (s.conversations (getConversationKey u ct)).getD [],
      m.role = Role.system) :
    ∃ newConv,
      (addMessage s u ct msg now).conversations (getConversationKey u ct) = some newConv ∧
      (∃ m ∈ newConv, m.role = Role.system) ∧
      newConv.length ≤ maxHistoryLength + 1 ∧
      ((∀ m ∈ (((s.conversations (getConversationKey u ct)).getD []) ++ [msg]).drop
          ((((s.conversations (getConversationKey u ct)).getD []) ++ [msg]).length
            - maxHistoryLength), m.role ≠ Role.system) →
        newConv.head?.map ConversationMessage.role = some Role.system ∧
          newConv.length = maxHistoryLength + 1) := by
  refine ⟨_, addMessage_conversations_key s u ct msg now, ?_⟩
  exact pushAndTrim_system_preserved _ msg hlen hsys

/-- Witness for the amended C1 at the concrete overflowing state `c1Pre`. -/
theorem C1_amended_system_preserved_witness :
    (maxHistoryLength <
      (((c1Pre.conversations (getConversationKey "U1" ContextType.dm)).getD [])
        ++ [uMsg]).length) ∧
    ∃ newConv,
      (addMessage c1Pre "U1" ContextType.dm uMsg 0).conversations
          (getConversationKey "U1" ContextType.dm) = some newConv ∧
      (∃ m ∈ newConv, m.role = Role.system) ∧
      newConv.length ≤ maxHistoryLength + 1 ∧
      ((∀ m ∈ (((c1Pre.conversations (getConversationKey "U1" ContextType.dm)).getD [])
          ++ [uMsg]).drop
          ((((c1Pre.conversations (getConversationKey "U1" ContextType.dm)).getD [])
            ++ [uMsg]).length - maxHistoryLength), m.role ≠ Role.system) →
        newConv.head?.map ConversationMessage.role = some Role.system ∧
          newConv.length = maxHistoryLength + 1) :=
  ⟨by decide,
   C1_amended_system_preserved c1Pre "U1" ContextType.dm uMsg 0 (by decide) (by decide)⟩

/-! ## C7: clearConversation is total, idempotent, and fully resets -/

theorem updateMap_eq_self {α : Type} (m : String → Option α) (k : String) (v : Option α)
    (h : m k = v) : updateMap m k v = m := by
  funext k'
  by_cases hk : k' = k
  · subst hk; simp [updateMap, h]
  · simp [updateMap, hk]

theorem clearConversation_conversations (s : ManagerState) (u : String) (ct : ContextType) :
    (clearConversation s u ct).conversations
      = updateMap s.conversations (getConversationKey u ct) none := by
  unfold clearConversation
  cases h : s.expirations (getConversationKey u ct) <;> simp [h]

theorem clearConversation_expirations_key (s : ManagerState) (u : String) (ct : ContextType) :
    (clearConversation s u ct).expirations (getConversationKey u ct) = none := by
  unfold clearConversation
  cases h : s.expirations (getConversationKey u ct) <;> simp [h, updateMap_same]

/-- Clearing a key whose conversation and timer entries are both already
absent does not change the state at all. -/
theorem clearConversation_noop (r : ManagerState) (u : String) (ct : ContextType)
    (hexp : r.expirations (getConversationKey u ct) = none)
    (hconv : r.conversations (getConversationKey u ct) = none) :
    clearConversation r u ct = r := by
  unfold clearConversation
  simp [hexp, updateMap_eq_self _ _ _ hconv]

/-- C7: `clearConversation` is a total function (never raises), clearing
twice equals clearing once — the whole store state included — and a
`getConversation` after a clear returns the empty sequence, exactly as on a
never-touched key of a fresh manager. -/
theorem C7_clear_idempotent_full_reset (s : ManagerState) (u : String) (ct : ContextType)
    (now : Nat) :
    clearConversation (clearConversation s u ct) u ct = clearConversation s u ct ∧
    (getConversation (clearConversation s u ct) u ct now).fst = [] ∧
    (getConversation initState u ct now).fst = [] := by
  have hconv : (clearConversation s u ct).conversations (getConversationKey u ct) = none := by
    rw [clearConversation_conversations]
    exact updateMap_same _ _ _
  refine ⟨?_, ?_, ?_⟩
  · exact clearConversation_noop _ u ct (clearConversation_expirations_key s u ct) hconv
  · simp [getConversation, hconv]
  · simp [getConversation, initState]

/-! ## C8: key isolation of addMessage -/

/-- A single message appended to an empty conversation is stored as-is (no
trim at length 1). -/
theorem pushAndTrim_singleton (m : ConversationMessage) :
    pushAndTrim maxHistoryLength [] m = [m] := by
  simp [pushAndTrim, maxHistoryLength]

/-- C8: after `addMessage(u, dm, m)` on a store whose `(u, dm)` conversation
was empty, `getConversation(u, dm)` returns exactly `[m]`, and the
conversation stored under every other key — in particular `(u, channel)` —
is unchanged. -/
theorem C8_key_isolation (s : ManagerState) (u : String) (m : ConversationMessage)
    (now : Nat)
    (hEmpty : (s.conversations (getConversationKey u ContextType.dm)).getD [] = []) :
    (getConversation (addMessage s u ContextType.dm m now) u ContextType.dm now).fst = [m] ∧
    (∀ k, k ≠ getConversationKey u ContextType.dm →
      (addMessage s u ContextType.dm m now).conversations k = s.conversations k) ∧
    (addMessage s u ContextType.dm m now).conversations
        (getConversationKey u ContextType.channel)
      = s.conversations (getConversationKey u ContextType.channel) := by
  have hkey := addMessage_conversations_key s u ContextType.dm m now
  rw [hEmpty, pushAndTrim_singleton] at hkey
  refine ⟨?_, ?_, ?_⟩
  · simp [getConversation, hkey]
  · intro k hk
    exact addMessage_conversations_other s u ContextType.dm m now k hk
  · apply addMessage_conversations_other
    intro heq
    have h := getConversationKey_injective u u ContextType.channel ContextType.dm heq
    exact ContextType.noConfusion h.2

/-- Witness for C8 on a fresh manager. -/
theorem C8_key_isolation_witness :
    ((initState.conversations (getConversationKey "U2" ContextType.dm)).getD [] = []) ∧
    ((getConversation (addMessage initState "U2" ContextType.dm uMsg 3) "U2"
        ContextType.dm 3).fst = [uMsg] ∧
      (∀ k, k ≠ getConversationKey "U2" ContextType.dm →
        (addMessage initState "U2" ContextType.dm uMsg 3).conversations k
          = initState.conversations k) ∧
      (addMessage initState "U2" ContextType.dm uMsg 3).conversations
          (getConversationKey "U2" ContextType.channel)
        = initState.conversations (getConversationKey "U2" ContextType.channel)) :=
  ⟨rfl, C8_key_isolation initState "U2" uMsg 3 rfl⟩

/-! ## C2: deduplication lifecycle -/

/-- C2: a first-seen non-empty id is reported non-duplicate and recorded at
the current timestamp; while the recorded entry is within the TTL it
survives sweeps and every further check reports a duplicate; a sweep run
after the TTL has elapsed removes it, after which the check reports
non-duplicate again. -/
theorem C2_dedup_lifecycle (m : ProcessedEvents) (id : String) (t0 tq ts : Nat)
    (hid : id ≠ "") (hfresh : m id = none)
    (hq : tq - t0 ≤ EVENT_CACHE_TTL) (hs : EVENT_CACHE_TTL < ts - t0) :
    checkDuplicate m t0 (some id) = (false, updateMap m id (some t0)) ∧
    (checkDuplicate (updateMap m id (some t0)) tq (some id)).fst = true ∧
    sweep (updateMap m id (some t0)) tq id = some t0 ∧
    sweep (updateMap m id (some t0)) ts id = none ∧
    (checkDuplicate (sweep (updateMap m id (some t0)) ts) ts (some id)).fst = false := by
  refine ⟨?_, ?_, ?_, ?_, ?_⟩
  · simp [checkDuplicate, hid, hfresh]
  · simp [checkDuplicate, hid, updateMap_same]
  · simp [sweep, updateMap_same, Nat.not_lt.mpr hq]
  · simp [sweep, updateMap_same, hs]
  · have hswept : sweep (updateMap m id (some t0)) ts id = none := by
      simp [sweep, updateMap_same, hs]
    simp [checkDuplicate, hid, hswept]

/-- Witness for C2: the concrete E1 scenario — record at t=0, query at
t=100000 is a duplicate, sweep at t=400000 forgets it. -/
theorem C2_dedup_lifecycle_witness :
    (("E1" : String) ≠ "" ∧ (fun _ => (none : Option Nat)) "E1" = none ∧
      100000 - 0 ≤ EVENT_CACHE_TTL ∧ EVENT_CACHE_TTL < 400000 - 0) ∧
    (checkDuplicate (fun _ => none) 0 (some "E1")
        = (false, updateMap (fun _ => none) "E1" (some 0)) ∧
      (checkDuplicate (updateMap (fun _ => none) "E1" (some 0)) 100000 (some "E1")).fst
        = true ∧
      sweep (updateMap (fun _ => none) "E1" (some 0)) 100000 "E1" = some 0 ∧
      sweep (updateMap (fun _ => none) "E1" (some 0)) 400000 "E1" = none ∧
      (checkDuplicate (sweep (updateMap (fun _ => none) "E1" (some 0)) 400000) 400000
          (some "E1")).fst = false) :=
  ⟨⟨by decide, rfl, by decide, by decide⟩,
   C2_dedup_lifecycle (fun _ => none) "E1" 0 100000 400000 (by decide) rfl
     (by decide) (by decide)⟩

/-! ## C5: events without an id are never deduplicated -/

/-- C5: when the event id is absent or empty, the duplicate check reports
false and records nothing, the handler proceeds to normal processing, and
processing leaves the processed-events map untouched. -/
theorem C5_no_event_id (m : ProcessedEvents) (now : Nat) (p : EventPayload)
    (d : SlackEventType → Except String Unit)
    (h : p.event_id = none ∨ p.event_id = some "") :
    checkDuplicate m now p.event_id = (false, m) ∧
    handler m now p d = processEvent m p d ∧
    (processEvent m p d).snd = m := by
  have hcheck : checkDuplicate m now p.event_id = (false, m) := by
    rcases h with h | h <;> simp [checkDuplicate, h]
  refine ⟨hcheck, ?_, ?_⟩
  · simp [handler, hcheck]
  · unfold processEvent
    rcases hp : p.event with _ | ev
    · rfl
    · cases hd : d ev <;> simp [hd]

/-- Witness for C5 at a concrete id-less payload. -/
theorem C5_no_event_id_witness :
    ((EventPayload.mk none (some SlackEventType.message)).event_id = none ∨
      (EventPayload.mk none (some SlackEventType.message)).event_id = some "") ∧
    (checkDuplicate (fun _ => none) 7
        (EventPayload.mk none (some SlackEventType.message)).event_id
      = (false, fun _ => none) ∧
      handler (fun _ => none) 7 (EventPayload.mk none (some SlackEventType.message))
          (fun _ => Except.ok ())
        = processEvent (fun _ => none) (EventPayload.mk none (some SlackEventType.message))
            (fun _ => Except.ok ()) ∧
      (processEvent (fun _ => none) (EventPayload.mk none (some SlackEventType.message))
          (fun _ => Except.ok ())).snd = (fun _ => none)) :=
  ⟨Or.inl rfl,
   C5_no_event_id (fun _ => none) 7 (EventPayload.mk none (some SlackEventType.message))
     (fun _ => Except.ok ()) (Or.inl rfl)⟩

/-! ## C10: ids are recorded before dispatch, so failed events stay suppressed -/

/-- C10: a fresh non-empty id is inserted into the processed-events map
before dispatch, whatever the dispatch outcome; a throwing dispatch yields
the 500 response with the id still recorded; a redelivery of the same
payload is answered as a duplicate, with the map unchanged and the second
dispatch never consulted. -/
theorem C10_failed_events_stay_recorded (m : ProcessedEvents) (now : Nat)
    (p : EventPayload) (d : SlackEventType → Except String Unit) (id : String)
    (hid : p.event_id = some id) (hne : id ≠ "") (hfresh : m id = none) :
    (handler m now p d).snd = updateMap m id (some now) ∧
    (∀ ev e, p.event = some ev → d ev = Except.error e →
      handler m now p d = (HandlerResponse.internalError, updateMap m id (some now))) ∧
    (∀ (d2 : SlackEventType → Except String Unit) (now2 : Nat),
      handler (updateMap m id (some now)) now2 p d2
        = (HandlerResponse.okDuplicate, updateMap m id (some now))) := by
  have hcheck : checkDuplicate m now p.event_id = (false, updateMap m id (some now)) := by
    simp [checkDuplicate, hid, hne, hfresh]
  have hsnd : ∀ d', (processEvent (updateMap m id (some now)) p d').snd
      = updateMap m id (some now) := by
    intro d'
    unfold processEvent
    rcases hp : p.event with _ | ev
    · rfl
    · cases hd : d' ev <;> simp [hd]
  refine ⟨?_, ?_, ?_⟩
  · simp only [handler, hcheck]
    simpa using hsnd d
  · intro ev e hev herr
    simp [handler, hcheck, processEvent, hev, herr]
  · intro d2 now2
    simp [handler, checkDuplicate, hid, hne, updateMap_same]

/-- Witness for C10: a dispatch that throws still leaves "E1" recorded and
suppressed on redelivery. -/
theorem C10_failed_events_stay_recorded_witness :
    ((EventPayload.mk (some "E1") (some SlackEventType.message)).event_id = some "E1" ∧
      ("E1" : String) ≠ "" ∧ (fun _ => (none : Option Nat)) "E1" = none) ∧
    ((handler (fun _ => none) 5 (EventPayload.mk (some "E1") (some SlackEventType.message))
        (fun _ => Except.error "boom")).snd = updateMap (fun _ => none) "E1" (some 5) ∧
      (∀ ev e,
        (EventPayload.mk (some "E1") (some SlackEventType.message)).event = some ev →
        (fun _ => Except.error "boom" : SlackEventType → Except String Unit) ev
            = Except.error e →
        handler (fun _ => none) 5 (EventPayload.mk (some "E1") (some SlackEventType.message))
            (fun _ => Except.error "boom")
          = (HandlerResponse.internalError, updateMap (fun _ => none) "E1" (some 5))) ∧
      (∀ (d2 : SlackEventType → Except String Unit) (now2 : Nat),
        handler (updateMap (fun _ => none) "E1" (some 5)) now2
            (EventPayload.mk (some "E1") (some SlackEventType.message)) d2
          = (HandlerResponse.okDuplicate, updateMap (fun _ => none) "E1" (some 5)))) :=
  ⟨⟨rfl, by decide, rfl⟩,
   C10_failed_events_stay_recorded (fun _ => none) 5
     (EventPayload.mk (some "E1") (some SlackEventType.message))
     (fun _ => Except.error "boom") "E1" rfl (by decide) rfl⟩

/-! ## C9: expiration-timer discipline -/

/-- The live timers whose callback targets a given conversation key. -/
def timersFor (s : ManagerState) (key : String) : List TimerEntry :=
  s.live.filter (fun t => decide (t.key = key))

/-- Timer bookkeeping invariant: every live timer's id is exactly the handle
stored in `expirations` for its key, ids are below the fresh-id counter, and
no two live timers share an id.  It holds for a fresh manager and is
preserved by every operation and by timer firing. -/
abbrev WF (s : ManagerState) : Prop :=
  (∀ t ∈ s.live, s.expirations t.key = some t.id) ∧
  (∀ t ∈ s.live, t.id < s.nextId) ∧
  s.live.Pairwise (fun a b => a.id ≠ b.id)

theorem mem_cancelIfScheduled {live : List TimerEntry} {h : Option Nat}
    {t : TimerEntry} (ht : t ∈ cancelIfScheduled live h) : t ∈ live := by
  cases h with
  | none => exact ht
  | some tid => exact (List.mem_filter.mp ht).1

theorem cancelIfScheduled_sublist (live : List TimerEntry) (h : Option Nat) :
    List.Sublist (cancelIfScheduled live h) live := by
  cases h with
  | none => exact List.Sublist.refl _
  | some tid => exact List.filter_sublist _

/-- Cancelling the stored handle for a key removes every live timer aimed at
that key (given the bookkeeping invariant's first component). -/
theorem cancelIfScheduled_no_key (s : ManagerState) (key : String)
    (hWF1 : ∀ t ∈ s.live, s.expirations t.key = some t.id) :
    ∀ t ∈ cancelIfScheduled s.live (s.expirations key), t.key ≠ key := by
  intro t ht hkey
  cases hexp : s.expirations key with
  | none =>
      rw [hexp] at ht
      have h1t := hWF1 t ht
      rw [hkey, hexp] at h1t
      exact Option.noConfusion h1t
  | some tid =>
      rw [hexp] at ht
      have hmem := List.mem_filter.mp ht
      have h1t := hWF1 t hmem.1
      rw [hkey, hexp] at h1t
      exact (of_decide_eq_true hmem.2) (Option.some.inj h1t).symm

/-- After `resetExpirationTimer`, the key owns exactly one live timer: the
freshly scheduled one, due `expirationTime` after `now`. -/
theorem resetExpirationTimer_timersFor (s : ManagerState) (key : String) (now : Nat)
    (hWF1 : ∀ t ∈ s.live, s.expirations t.key = some t.id) :
    timersFor (resetExpirationTimer s key now) key
      = [⟨s.nextId, key, now + expirationTime⟩] := by
  have hnone : (cancelIfScheduled s.live (s.expirations key)).filter
      (fun t => decide (t.key = key)) = [] := by
    rw [List.filter_eq_nil_iff]
    intro t ht
    simpa using cancelIfScheduled_no_key s key hWF1 t ht
  simp [timersFor, resetExpirationTimer, List.filter_append, hnone]

theorem resetExpirationTimer_WF (s : ManagerState) (key : String) (now : Nat)
    (h : WF s) : WF (resetExpirationTimer s key now) := by
  obtain ⟨h1, h2, h3⟩ := h
  refine ⟨?_, ?_, ?_⟩
  · intro t ht
    simp only [resetExpirationTimer] at ht ⊢
    rcases List.mem_append.mp ht with hin | hin
    · have hne := cancelIfScheduled_no_key s key h1 t hin
      rw [updateMap_ne _ _ _ _ hne]
      exact h1 t (mem_cancelIfScheduled hin)
    · have heq : t = ⟨s.nextId, key, now + expirationTime⟩ := by simpa using hin
      subst heq
      exact updateMap_same _ _ _
  · intro t ht
    simp only [resetExpirationTimer] at ht ⊢
    rcases List.mem_append.mp ht with hin | hin
    · exact Nat.lt_succ_of_lt (h2 t (mem_cancelIfScheduled hin))
    · have heq : t = ⟨s.nextId, key, now + expirationTime⟩ := by simpa using hin
      subst heq
      exact Nat.lt_succ_self _
  · simp only [resetExpirationTimer]
    rw [List.pairwise_append]
    refine ⟨h3.sublist (cancelIfScheduled_sublist _ _), by simp, ?_⟩
    intro a ha b hb
    have hb' : b = ⟨s.nextId, key, now + expirationTime⟩ := by simpa using hb
    subst hb'
    exact Nat.ne_of_lt (h2 a (mem_cancelIfScheduled ha))

theorem clearConversation_WF (s : ManagerState) (u : String) (ct : ContextType)
    (h : WF s) : WF (clearConversation s u ct) := by
  obtain ⟨h1, h2, h3⟩ := h
  cases hexp : s.expirations (getConversationKey u ct) with
  | none =>
      simp only [clearConversation, hexp]
      exact ⟨h1, h2, h3⟩
  | some tid =>
      simp only [clearConversation, hexp]
      refine ⟨?_, ?_, ?_⟩
      · intro t ht
        have hmem := List.mem_filter.mp ht
        have hne : t.key ≠ getConversationKey u ct := by
          intro hk
          have h1t := h1 t hmem.1
          rw [hk, hexp] at h1t
          exact (of_decide_eq_true hmem.2) (Option.some.inj h1t).symm
        show updateMap s.expirations (getConversationKey u ct) none t.key = some t.id
        rw [updateMap_ne _ _ _ _ hne]
        exact h1 t hmem.1
      · intro t ht
        exact h2 t (List.mem_filter.mp ht).1
      · exact h3.sublist (List.filter_sublist _)

/-- Everything the firing of a live timer does, under the invariant: the
key's conversation entry and timer bookkeeping entry are gone, no live timer
for the key remains, no new timer was scheduled (the live set only shrinks
and the fresh-id counter is untouched), and the invariant is preserved. -/
theorem fireTimer_spec (s : ManagerState) (t : TimerEntry) (h : WF s)
    (hmem : t ∈ s.live) :
    (fireTimer s t).conversations t.key = none ∧
    (fireTimer s t).expirations t.key = none ∧
    timersFor (fireTimer s t) t.key = [] ∧
    List.Sublist (fireTimer s t).live s.live ∧
    (fireTimer s t).nextId = s.nextId ∧
    WF (fireTimer s t) := by
  obtain ⟨h1, h2, h3⟩ := h
  have hkeyne : ∀ u ∈ s.live.filter (fun u => u.id ≠ t.id), u.key ≠ t.key := by
    intro u hu hk
    have humem := List.mem_filter.mp hu
    have h1u := h1 u humem.1
    have h1t := h1 t hmem
    rw [hk] at h1u
    exact (of_decide_eq_true humem.2) (Option.some.inj (h1u.symm.trans h1t))
  refine ⟨?_, ?_, ?_, ?_, rfl, ?_, ?_, ?_⟩
  · by_cases hc : (s.conversations t.key).isSome
    · simp [fireTimer, hc, updateMap_same]
    · simp [fireTimer, hc, Option.not_isSome_iff_eq_none.mp hc]
  · exact updateMap_same _ _ _
  · rw [timersFor, List.filter_eq_nil_iff]
    intro u hu
    simpa using hkeyne u hu
  · exact List.filter_sublist _
  · intro u hu
    show updateMap s.expirations t.key none u.key = some u.id
    rw [updateMap_ne _ _ _ _ (hkeyne u hu)]
    exact h1 u (List.mem_filter.mp hu).1
  · intro u hu
    exact h2 u (List.mem_filter.mp hu).1
  · exact h3.sublist (List.filter_sublist _)

/-- One atomic step of the (conversations, timers, clock) system: a public
operation at some instant, or the firing of a live timer once its deadline
has passed. -/
inductive Step : ManagerState → ManagerState → Prop where
  | get (s : ManagerState) (u : String) (ct : ContextType) (now : Nat) :
      Step s (getConversation s u ct now).snd
  | add (s : ManagerState) (u : String) (ct : ContextType)
      (msg : ConversationMessage) (now : Nat) : Step s (addMessage s u ct msg now)
  | clearOp (s : ManagerState) (u : String) (ct : ContextType) :
      Step s (clearConversation s u ct)
  | fire (s : ManagerState) (t : TimerEntry) (now : Nat)
      (hmem : t ∈ s.live) (hdue : t.fireAt ≤ now) : Step s (fireTimer s t)

/-- Replace the `conversations` field, keeping the timer state. -/
def setConversations (s : ManagerState)
    (c : String → Option (List ConversationMessage)) : ManagerState :=
  { s with conversations := c }

/-- `getConversation` updates only `conversations` before delegating the
timer work to `resetExpirationTimer`. -/
theorem getConversation_snd (s : ManagerState) (u : String) (ct : ContextType)
    (now : Nat) :
    (getConversation s u ct now).snd
      = resetExpirationTimer
          (setConversations s (updateMap s.conversations (getConversationKey u ct)
            (some ((s.conversations (getConversationKey u ct)).getD []))))
          (getConversationKey u ct) now := rfl

/-- `addMessage` updates only `conversations` before delegating the timer
work to `resetExpirationTimer`. -/
theorem addMessage_eq_reset (s : ManagerState) (u : String) (ct : ContextType)
    (msg : ConversationMessage) (now : Nat) :
    addMessage s u ct msg now
      = resetExpirationTimer
          (setConversations s (updateMap s.conversations (getConversationKey u ct)
            (some (pushAndTrim maxHistoryLength
              ((s.conversations (getConversationKey u ct)).getD []) msg))))
          (getConversationKey u ct) now := rfl

theorem Step_preserves_WF (s s' : ManagerState) (h : WF s) (hstep : Step s s') :
    WF s' := by
  cases hstep with
  | get u ct now =>
      rw [getConversation_snd]
      exact resetExpirationTimer_WF _ _ _ h
  | add u ct msg now =>
      rw [addMessage_eq_reset]
      exact resetExpirationTimer_WF _ _ _ h
  | clearOp u ct => exact clearConversation_WF s u ct h
  | fire t now hmem _ => exact (fireTimer_spec s t h hmem).2.2.2.2.2

/-- Under the invariant a key never owns two live timers. -/
theorem WF_timersFor_length_le_one (s : ManagerState) (k : String) (h : WF s) :
    (timersFor s k).length ≤ 1 := by
  obtain ⟨h1, _, h3⟩ := h
  rcases hl : timersFor s k with _ | ⟨a, _ | ⟨b, l⟩⟩
  · simp
  · simp
  · exfalso
    have hpair : (timersFor s k).Pairwise (fun x y => x.id ≠ y.id) :=
      h3.sublist (List.filter_sublist _)
    rw [hl] at hpair
    have hab : a.id ≠ b.id := (List.pairwise_cons.mp hpair).1 b (List.mem_cons_self _ _)
    have ha : a ∈ timersFor s k := by
      rw [hl]; exact List.mem_cons_self _ _
    have hb : b ∈ timersFor s k := by
      rw [hl]; exact List.mem_cons_of_mem _ (List.mem_cons_self _ _)
    have haf := List.mem_filter.mp ha
    have hbf := List.mem_filter.mp hb
    have hak : a.key = k := of_decide_eq_true haf.2
    have hbk : b.key = k := of_decide_eq_true hbf.2
    have h1a := h1 a haf.1
    have h1b := h1 b hbf.1
    rw [hak] at h1a
    rw [hbk] at h1b
    exact hab (Option.some.inj (h1a.symm.trans h1b))

/-- C9: timer discipline.  The bookkeeping invariant holds initially and is
preserved by every step; under it a key never has more than one pending
timer; every `getConversation` or `addMessage` leaves the key exactly one
pending timer, the freshly scheduled one due `expirationTime` after `now`
(the previously scheduled one, if any, was cancelled); and a firing timer
deletes the key's conversation data and its bookkeeping entry, leaves no
pending timer for the key, and never re-arms (the live set only shrinks and
no new handle is created). -/
theorem C9_timer_discipline :
    WF initState ∧
    (∀ s s' : ManagerState, WF s → Step s s' → WF s') ∧
    (∀ (s : ManagerState) (k : String), WF s → (timersFor s k).length ≤ 1) ∧
    (∀ (s : ManagerState) (u : String) (ct : ContextType) (now : Nat), WF s →
      timersFor (getConversation s u ct now).snd (getConversationKey u ct)
        = [⟨s.nextId, getConversationKey u ct, now + expirationTime⟩]) ∧
    (∀ (s : ManagerState) (u : String) (ct : ContextType)
        (msg : ConversationMessage) (now : Nat), WF s →
      timersFor (addMessage s u ct msg now) (getConversationKey u ct)
        = [⟨s.nextId, getConversationKey u ct, now + expirationTime⟩]) ∧
    (∀ (s : ManagerState) (t : TimerEntry), WF s → t ∈ s.live →
      (fireTimer s t).conversations t.key = none ∧
      (fireTimer s t).expirations t.key = none ∧
      timersFor (fireTimer s t) t.key = [] ∧
      List.Sublist (fireTimer s t).live s.live ∧
      (fireTimer s t).nextId = s.nextId) := by
  refine ⟨⟨by simp [initState], by simp [initState], by simp [initState]⟩,
    Step_preserves_WF, WF_timersFor_length_le_one, ?_, ?_, ?_⟩
  · intro s u ct now h
    rw [getConversation_snd]
    exact resetExpirationTimer_timersFor _ _ _ h.1
  · intro s u ct msg now h
    rw [addMessage_eq_reset]
    exact resetExpirationTimer_timersFor _ _ _ h.1
  · intro s t h hmem
    obtain ⟨hc, he, htf, hsub, hnext, _⟩ := fireTimer_spec s t h hmem
    exact ⟨hc, he, htf, hsub, hnext⟩

/-- The state after one `addMessage` on a fresh manager. -/
def c9S0 : ManagerState := addMessage initState "U1" ContextType.dm uMsg 0

/-- The single live timer of `c9S0`. -/
def c9T0 : TimerEntry := ⟨0, getConversationKey "U1" ContextType.dm, 0 + expirationTime⟩

/-- Witness for C9: each hypothesised component applied at concrete states. -/
theorem C9_timer_discipline_witness :
    WF initState ∧
    WF c9S0 ∧
    (timersFor initState "k").length ≤ 1 ∧
    timersFor (getConversation initState "U1" ContextType.dm 0).snd
        (getConversationKey "U1" ContextType.dm)
      = [⟨0, getConversationKey "U1" ContextType.dm, 0 + expirationTime⟩] ∧
    timersFor c9S0 (getConversationKey "U1" ContextType.dm)
      = [⟨0, getConversationKey "U1" ContextType.dm, 0 + expirationTime⟩] ∧
    ((fireTimer c9S0 c9T0).conversations c9T0.key = none ∧
      (fireTimer c9S0 c9T0).expirations c9T0.key = none ∧
      timersFor (fireTimer c9S0 c9T0) c9T0.key = [] ∧
      List.Sublist (fireTimer c9S0 c9T0).live c9S0.live ∧
      (fireTimer c9S0 c9T0).nextId = c9S0.nextId) :=
  ⟨C9_timer_discipline.1,
   C9_timer_discipline.2.1 initState c9S0 (by decide)
     (Step.add initState "U1" ContextType.dm uMsg 0),
   C9_timer_discipline.2.2.1 initState "k" (by decide),
   C9_timer_discipline.2.2.2.1 initState "U1" ContextType.dm 0 (by decide),
   C9_timer_discipline.2.2.2.2.1 initState "U1" ContextType.dm uMsg 0 (by decide),
   C9_timer_discipline.2.2.2.2.2 c9S0 c9T0 (by decide) (by decide)⟩

end SlackApp
